import Mathlib

/-!
Shallow embedding of genpass.py (FlexEbat/genpass), the offline password
generator.  The embedding covers the configuration constants, the entropy
formula calculate_entropy, and the core operation generate_password:
validation, pool construction, mandatory-category draws, uniform fill and
the Fisher-Yates shuffle performed by secrets.SystemRandom().shuffle.

Randomness is modelled by two streams of naturals r sh : Nat → Nat; the
value r c % n stands for draw number c of uniform sampling below n (this is
secrets.choice over a sequence of length n), and sh likewise drives the
Fisher-Yates shuffle.  Python strings are modelled as List Char (the final
join of the character buffer is the identity under this view), and the
real-valued entropy (math.log2) is modelled over ℝ.  Since ℝ has no
executable representation, generate_password0 is the executable generator
returning the password together with len(full_pool), and generate_password
applies calculate_entropy to that size, exactly as the source returns the
pair of the joined buffer and calculate_entropy(len(full_pool), length).
-/

namespace Genpass

/-- Configuration constant MIN_LENGTH of the source. -/
def MIN_LENGTH : Nat := 8

/-- Configuration constant MAX_LENGTH of the source (enforced by the CLI
layer, not by generate_password). -/
def MAX_LENGTH : Nat := 128

/-- Configuration constant DEFAULT_LENGTH of the source. -/
def DEFAULT_LENGTH : Nat := 20

/-- CHARS_LOWER = string.ascii_lowercase. -/
def CHARS_LOWER : List Char := "abcdefghijklmnopqrstuvwxyz".toList

/-- CHARS_UPPER = string.ascii_uppercase. -/
def CHARS_UPPER : List Char := "ABCDEFGHIJKLMNOPQRSTUVWXYZ".toList

/-- CHARS_DIGITS = string.digits. -/
def CHARS_DIGITS : List Char := "0123456789".toList

/-- CHARS_SYMBOLS = string.punctuation: the 32 ASCII punctuation characters
in code-point order. -/
def CHARS_SYMBOLS : List Char := "!\"#$%&\x27()*+,-./:;<=>?@[\\]^_`\x7b|\x7d~".toList

/-- CHARS_SYMBOLS_SAFE, the restricted symbol-set literal of the source. -/
def CHARS_SYMBOLS_SAFE : List Char := "!#%&()*+,-./:;=?@[]^\x7b\x7d~_".toList

/-- The distinct validation-error kinds raised by generate_password, each a
distinct ValueError in the source, named as in the spec taxonomy. -/
inductive GenError : Type where
  | invalidPool : GenError
  | noCategorySelected : GenError
  | lengthTooShort : GenError
  | lengthBelowCategoryMinimum : GenError
  deriving DecidableEq, Repr

/-- Mirrors calculate_entropy: if pool_size == 0 or length == 0 the result
is 0, else length * math.log2(pool_size), read over the reals. -/
noncomputable def calculate_entropy (pool_size length : Nat) : ℝ :=
  if pool_size = 0 ∨ length = 0 then 0 else length * Real.logb 2 pool_size

/-- Python truthiness of the custom_chars argument of generate_password:
None and the empty string are falsy, any nonempty string is truthy. -/
def customTruthy : Option (List Char) → Bool
  | some cs => !cs.isEmpty
  | none => false

/-- len(set(custom_chars)): the number of distinct characters of the custom
pool, 0 when the argument is absent. -/
def customDistinct : Option (List Char) → Nat
  | some cs => cs.dedup.length
  | none => 0

/-- The pools accumulated by the else branch of generate_password: the
enabled named pools in source order lowercase, uppercase, digits, symbols,
the symbol pool chosen by use_safe. -/
def namedPools (use_upper use_lower use_digits use_symbols use_safe : Bool) :
    List (List Char) :=
  (if use_lower then [CHARS_LOWER] else []) ++
  (if use_upper then [CHARS_UPPER] else []) ++
  (if use_digits then [CHARS_DIGITS] else []) ++
  (if use_symbols then [if use_safe then CHARS_SYMBOLS_SAFE else CHARS_SYMBOLS] else [])

/-- The pools list of generate_password: the truthy custom pool alone, or
the enabled named pools.  In the source, full_pool is accumulated alongside
pools and always equals the concatenation (flatten) of this list. -/
def poolsOf (use_upper use_lower use_digits use_symbols use_safe : Bool)
    (custom_chars : Option (List Char)) : List (List Char) :=
  match custom_chars with
  | some cs =>
      if cs.isEmpty then namedPools use_upper use_lower use_digits use_symbols use_safe
      else [cs]
  | none => namedPools use_upper use_lower use_digits use_symbols use_safe

/-- secrets.choice(pool): the uniform draw numbered c of the stream r,
reduced modulo the pool size.  The default character is never reached on
the nonempty pools that validation admits. -/
def choiceAt (r : Nat → Nat) (c : Nat) (pool : List Char) : Char :=
  pool.getD (r c % pool.length) 'a'

/-- The first loop of generate_password: one secrets.choice per pool, the
draw counter starting at c. -/
def drawFrom (r : Nat → Nat) (c : Nat) : List (List Char) → List Char
  | [] => []
  | pool :: rest => choiceAt r c pool :: drawFrom r (c + 1) rest

/-- The second loop of generate_password: k further secrets.choice draws
from full_pool, the draw counter continuing from start. -/
def drawFill (r : Nat → Nat) (full_pool : List Char) (start k : Nat) : List Char :=
  (List.range k).map fun i => choiceAt r (start + i) full_pool

/-- One swap of the CPython shuffle body: x[i], x[j] = x[j], x[i]. -/
def swapAt (l : List Char) (i j : Nat) : List Char :=
  match l[i]?, l[j]? with
  | some a, some b => (l.set i b).set j a
  | _, _ => l

/-- Fisher-Yates swaps for indices i, i-1, ..., 1, index i being swapped
with a uniform draw below i + 1, as in CPython Random.shuffle driven by
SystemRandom. -/
def fyAux (sh : Nat → Nat) : List Char → Nat → List Char
  | l, 0 => l
  | l, i + 1 => fyAux sh (swapAt l (i + 1) (sh (i + 1) % (i + 2))) i

/-- secrets.SystemRandom().shuffle(password_chars): swaps run for the
indices len - 1 down to 1. -/
def fyShuffle (sh : Nat → Nat) (l : List Char) : List Char :=
  fyAux sh l (l.length - 1)

/-- Executable core of generate_password, mirroring the source line by
line: the truthy-custom InvalidPool check, pool and full_pool construction,
the empty-universe, minimum-length and category-minimum checks, then one
mandatory draw per pool, the uniform fill, and the final shuffle.  The
second component of the result is len(full_pool); the wrapper
generate_password below turns it into the real-valued entropy exactly as
the source does on its return line. -/
def generate_password0 (length : Nat)
    (use_upper use_lower use_digits use_symbols use_safe : Bool)
    (custom_chars : Option (List Char)) (r sh : Nat → Nat) :
    Except GenError (List Char × Nat) :=
  if customTruthy custom_chars = true ∧ customDistinct custom_chars < 2 then
    .error .invalidPool
  else
    let pools := poolsOf use_upper use_lower use_digits use_symbols use_safe custom_chars
    let full_pool := pools.flatten
    if full_pool = [] then .error .noCategorySelected
    else if length < MIN_LENGTH then .error .lengthTooShort
    else if length < pools.length then .error .lengthBelowCategoryMinimum
    else
      let password_chars :=
        drawFrom r 0 pools ++ drawFill r full_pool pools.length (length - pools.length)
      .ok (fyShuffle sh password_chars, full_pool.length)

/-- generate_password: the source returns the joined shuffled buffer paired
with calculate_entropy(len(full_pool), length). -/
noncomputable def generate_password (length : Nat)
    (use_upper use_lower use_digits use_symbols use_safe : Bool)
    (custom_chars : Option (List Char)) (r sh : Nat → Nat) :
    Except GenError (List Char × ℝ) :=
  (generate_password0 length use_upper use_lower use_digits use_symbols use_safe
      custom_chars r sh).map
    fun pr => (pr.1, calculate_entropy pr.2 length)

/-! Permutation lemmas for the Fisher-Yates shuffle. -/

/-- Replacing the element stored at position m while moving it to the front
is a permutation of putting the new element in front instead. -/
theorem perm_cons_set {α : Type} :
    ∀ (xs : List α) (m : Nat) (b x : α), xs[m]? = some b →
      List.Perm (b :: xs.set m x) (x :: xs) := by
  intro xs
  induction xs with
  | nil => intro m b x h; simp at h
  | cons y ys ih =>
    intro m b x h
    cases m with
    | zero =>
      simp only [List.getElem?_cons_zero, Option.some.injEq] at h
      subst h
      simp only [List.set_cons_zero]
      exact List.Perm.swap x y ys
    | succ k =>
      simp only [List.getElem?_cons_succ] at h
      simp only [List.set_cons_succ]
      have h1 : List.Perm (b :: y :: ys.set k x) (y :: b :: ys.set k x) :=
        List.Perm.swap y b (ys.set k x)
      have h2 : List.Perm (y :: b :: ys.set k x) (y :: x :: ys) :=
        List.Perm.cons y (ih k b x h)
      have h3 : List.Perm (y :: x :: ys) (x :: y :: ys) := List.Perm.swap x y ys
      exact h1.trans (h2.trans h3)

/-- Exchanging the entries at two positions permutes the list. -/
theorem perm_set_set {α : Type} :
    ∀ (l : List α) (i j : Nat) (a b : α), l[i]? = some a → l[j]? = some b →
      List.Perm ((l.set i b).set j a) l := by
  intro l
  induction l with
  | nil => intro i j a b hi _; simp at hi
  | cons x xs ih =>
    intro i j a b hi hj
    cases i with
    | zero =>
      simp only [List.getElem?_cons_zero, Option.some.injEq] at hi
      subst hi
      cases j with
      | zero =>
        simp only [List.getElem?_cons_zero, Option.some.injEq] at hj
        subst hj
        simp
      | succ k =>
        simp only [List.getElem?_cons_succ] at hj
        simp only [List.set_cons_zero, List.set_cons_succ]
        exact perm_cons_set xs k b x hj
    | succ m =>
      cases j with
      | zero =>
        simp only [List.getElem?_cons_succ] at hi
        simp only [List.getElem?_cons_zero, Option.some.injEq] at hj
        subst hj
        simp only [List.set_cons_succ, List.set_cons_zero]
        exact perm_cons_set xs m a x hi
      | succ k =>
        simp only [List.getElem?_cons_succ] at hi hj
        simp only [List.set_cons_succ]
        exact List.Perm.cons x (ih m k a b hi hj)

/-- A single shuffle-body swap permutes the buffer. -/
theorem swapAt_perm (l : List Char) (i j : Nat) : List.Perm (swapAt l i j) l := by
  unfold swapAt
  cases hi : l[i]? with
  | none => exact List.Perm.refl l
  | some a =>
    cases hj : l[j]? with
    | none => exact List.Perm.refl l
    | some b => exact perm_set_set l i j a b hi hj

/-- Every partial run of the Fisher-Yates loop permutes the buffer. -/
theorem fyAux_perm (sh : Nat → Nat) : ∀ (n : Nat) (l : List Char),
    List.Perm (fyAux sh l n) l := by
  intro n
  induction n with
  | zero => intro l; exact List.Perm.refl l
  | succ i ih =>
    intro l
    exact (ih (swapAt l (i + 1) (sh (i + 1) % (i + 2)))).trans
      (swapAt_perm l (i + 1) (sh (i + 1) % (i + 2)))

/-- The modelled secrets.SystemRandom().shuffle permutes the buffer. -/
theorem fyShuffle_perm (sh : Nat → Nat) (l : List Char) :
    List.Perm (fyShuffle sh l) l :=
  fyAux_perm sh (l.length - 1) l

/-- Shuffling does not change the buffer length. -/
theorem fyShuffle_length (sh : Nat → Nat) (l : List Char) :
    (fyShuffle sh l).length = l.length :=
  (fyShuffle_perm sh l).length_eq

/-! Lengths and memberships of the drawn characters. -/

/-- The mandatory loop draws exactly one character per pool. -/
theorem drawFrom_length (r : Nat → Nat) :
    ∀ (pools : List (List Char)) (c : Nat), (drawFrom r c pools).length = pools.length := by
  intro pools
  induction pools with
  | nil => intro c; rfl
  | cons p ps ih => intro c; simp [drawFrom, ih]

/-- The fill loop draws exactly the requested number of characters. -/
theorem drawFill_length (r : Nat → Nat) (full_pool : List Char) (start k : Nat) :
    (drawFill r full_pool start k).length = k := by
  simp [drawFill]

/-- A uniform draw from a nonempty pool lands in the pool. -/
theorem choiceAt_mem (r : Nat → Nat) (c : Nat) (pool : List Char)
    (h : pool ≠ []) : choiceAt r c pool ∈ pool := by
  unfold choiceAt
  have hlen : 0 < pool.length := List.length_pos.mpr h
  have hlt : r c % pool.length < pool.length := Nat.mod_lt _ hlen
  rw [List.getD_eq_getElem pool 'a' hlt]
  exact List.getElem_mem hlt

/-- The mandatory loop yields a character of every nonempty listed pool. -/
theorem drawFrom_exists_mem (r : Nat → Nat) :
    ∀ (pools : List (List Char)) (c : Nat) (p : List Char),
      p ∈ pools → p ≠ [] → ∃ ch, ch ∈ drawFrom r c pools ∧ ch ∈ p := by
  intro pools
  induction pools with
  | nil => intro c p hp _; simp at hp
  | cons q qs ih =>
    intro c p hp hne
    rcases List.mem_cons.mp hp with hq | hq
    · subst hq
      exact ⟨choiceAt r c p, List.mem_cons_self _ _, choiceAt_mem r c p hne⟩
    · obtain ⟨ch, hch1, hch2⟩ := ih (c + 1) p hq hne
      exact ⟨ch, List.mem_cons_of_mem _ hch1, hch2⟩

/-- Every character drawn by the fill loop lies in full_pool. -/
theorem drawFill_mem (r : Nat → Nat) (full_pool : List Char) (start k : Nat)
    (ch : Char) (h : ch ∈ drawFill r full_pool start k) (hne : full_pool ≠ []) :
    ch ∈ full_pool := by
  simp only [drawFill, List.mem_map] at h
  obtain ⟨i, _, hi⟩ := h
  rw [← hi]
  exact choiceAt_mem r (start + i) full_pool hne

/-! Structure of the pools list. -/

/-- Each of the four named pool constants is nonempty. -/
theorem chars_constants_ne_nil :
    CHARS_LOWER ≠ [] ∧ CHARS_UPPER ≠ [] ∧ CHARS_DIGITS ≠ [] ∧
    CHARS_SYMBOLS ≠ [] ∧ CHARS_SYMBOLS_SAFE ≠ [] := by
  refine ⟨?_, ?_, ?_, ?_, ?_⟩ <;> decide

/-- A member of the named pools list is one of the five pool constants. -/
theorem mem_namedPools_cases {p : List Char} {u l d s safe : Bool}
    (h : p ∈ namedPools u l d s safe) :
    p = CHARS_LOWER ∨ p = CHARS_UPPER ∨ p = CHARS_DIGITS ∨
    p = CHARS_SYMBOLS_SAFE ∨ p = CHARS_SYMBOLS := by
  unfold namedPools at h
  split_ifs at h <;> simp_all <;> tauto

/-- Every pool in the pools list of generate_password is nonempty. -/
theorem mem_poolsOf_ne_nil {p : List Char} {u l d s safe : Bool}
    {custom : Option (List Char)}
    (h : p ∈ poolsOf u l d s safe custom) : p ≠ [] := by
  have hnamed : ∀ q : List Char, q ∈ namedPools u l d s safe → q ≠ [] := by
    intro q hq
    rcases mem_namedPools_cases hq with h1 | h1 | h1 | h1 | h1 <;> subst h1
    · exact chars_constants_ne_nil.1
    · exact chars_constants_ne_nil.2.1
    · exact chars_constants_ne_nil.2.2.1
    · exact chars_constants_ne_nil.2.2.2.2
    · exact chars_constants_ne_nil.2.2.2.1
  cases custom with
  | none =>
    simp only [poolsOf] at h
    exact hnamed p h
  | some cs =>
    simp only [poolsOf] at h
    by_cases hcs : cs.isEmpty
    · rw [if_pos hcs] at h
      exact hnamed p h
    · rw [if_neg hcs] at h
      rcases List.mem_singleton.mp h with rfl
      exact fun hnil => hcs (by simp [hnil])

/-- The pools list never holds more than the four named categories. -/
theorem poolsOf_length_le (u l d s safe : Bool) (custom : Option (List Char)) :
    (poolsOf u l d s safe custom).length ≤ 4 := by
  have hnamed : (namedPools u l d s safe).length ≤ 4 := by
    cases u <;> cases l <;> cases d <;> cases s <;> simp [namedPools]
  cases custom with
  | none =>
    simp only [poolsOf]
    exact hnamed
  | some cs =>
    simp only [poolsOf]
    by_cases hcs : cs.isEmpty
    · rw [if_pos hcs]; exact hnamed
    · rw [if_neg hcs]; simp

/-- A nonempty pools list of generate_password concatenates to a nonempty
universe. -/
theorem poolsOf_flatten_ne_nil {u l d s safe : Bool} {custom : Option (List Char)}
    (h : poolsOf u l d s safe custom ≠ []) :
    (poolsOf u l d s safe custom).flatten ≠ [] := by
  cases hp : poolsOf u l d s safe custom with
  | nil => exact absurd hp h
  | cons q qs =>
    have hq : q ∈ poolsOf u l d s safe custom := by rw [hp]; exact List.mem_cons_self _ _
    have hqne := mem_poolsOf_ne_nil hq
    simp only [List.flatten_cons]
    intro hcontra
    exact hqne (List.append_eq_nil.mp hcontra).1

/-! Inversion of generate_password0. -/

/-- Success inversion: generate_password0 returns ok exactly when every
validation check passes, and then the password is the shuffled buffer of
one mandatory draw per pool followed by the uniform fill, and the reported
pool size is the length of the concatenated universe. -/
theorem generate_password0_ok_iff
    {length : Nat} {u l d s safe : Bool} {custom : Option (List Char)}
    {r sh : Nat → Nat} {res : List Char × Nat} :
    generate_password0 length u l d s safe custom r sh = Except.ok res ↔
      ¬(customTruthy custom = true ∧ customDistinct custom < 2) ∧
      (poolsOf u l d s safe custom).flatten ≠ [] ∧
      MIN_LENGTH ≤ length ∧
      (poolsOf u l d s safe custom).length ≤ length ∧
      res = (fyShuffle sh (drawFrom r 0 (poolsOf u l d s safe custom) ++
               drawFill r (poolsOf u l d s safe custom).flatten
                 (poolsOf u l d s safe custom).length
                 (length - (poolsOf u l d s safe custom).length)),
             (poolsOf u l d s safe custom).flatten.length) := by
  simp only [generate_password0]
  split_ifs with h1 h2 h3 h4
  · simp [h1]
  · simp [h2]
  · simp [Nat.not_le.mpr h3]
  · simp [Nat.not_le.mpr h4]
  · constructor
    · intro h
      refine ⟨h1, h2, Nat.not_lt.mp h3, Nat.not_lt.mp h4, ?_⟩
      injection h with h5
      exact h5.symm
    · rintro ⟨-, -, -, -, h5⟩
      rw [h5]

/-- Error results pass through the entropy-attaching wrapper unchanged. -/
theorem generate_password_error {length : Nat} {u l d s safe : Bool}
    {custom : Option (List Char)} {r sh : Nat → Nat} {e : GenError}
    (h : generate_password0 length u l d s safe custom r sh = Except.error e) :
    generate_password length u l d s safe custom r sh = Except.error e := by
  unfold generate_password
  rw [h]
  rfl

/-- Ok results of the core give the ok result of generate_password with the
entropy computed from the reported pool size. -/
theorem generate_password_ok {length : Nat} {u l d s safe : Bool}
    {custom : Option (List Char)} {r sh : Nat → Nat} {pw : List Char} {n : Nat}
    (h : generate_password0 length u l d s safe custom r sh = Except.ok (pw, n)) :
    generate_password length u l d s safe custom r sh =
      Except.ok (pw, calculate_entropy n length) := by
  unfold generate_password
  rw [h]
  rfl

/-! Universe description following the spec wording, used as the refinement
target of claim C7. -/

/-- Universe as the spec words it: the enabled named pools concatenated in
the fixed order lowercase, uppercase, digits, symbols, the safe subset
replacing full punctuation when safe mode is on. -/
def specUniverse (use_upper use_lower use_digits use_symbols use_safe : Bool) :
    List Char :=
  (if use_lower then CHARS_LOWER else []) ++
  (if use_upper then CHARS_UPPER else []) ++
  (if use_digits then CHARS_DIGITS else []) ++
  (if use_symbols then (if use_safe then CHARS_SYMBOLS_SAFE else CHARS_SYMBOLS) else [])

/-- Helper: on success the password buffer has exactly the requested
length. -/
theorem gen0_ok_length
    {length : Nat} {u l d s safe : Bool} {custom : Option (List Char)}
    {r sh : Nat → Nat} {pw : List Char} {n : Nat}
    (h : generate_password0 length u l d s safe custom r sh = Except.ok (pw, n)) :
    pw.length = length := by
  obtain ⟨-, -, -, hk, hres⟩ := generate_password0_ok_iff.mp h
  simp only [Prod.mk.injEq] at hres
  obtain ⟨hpw, -⟩ := hres
  rw [hpw, fyShuffle_length, List.length_append, drawFrom_length, drawFill_length]
  omega

/-- Helper: on success the reported pool size is the length of the
concatenated universe. -/
theorem gen0_ok_poolSize
    {length : Nat} {u l d s safe : Bool} {custom : Option (List Char)}
    {r sh : Nat → Nat} {pw : List Char} {n : Nat}
    (h : generate_password0 length u l d s safe custom r sh = Except.ok (pw, n)) :
    n = (poolsOf u l d s safe custom).flatten.length := by
  obtain ⟨-, -, -, -, hres⟩ := generate_password0_ok_iff.mp h
  simp only [Prod.mk.injEq] at hres
  exact hres.2

/-- Helper: on success the entropy attached by generate_password is the
size-based formula, since the universe is nonempty and the length is at
least MIN_LENGTH. -/
theorem gen0_ok_entropy
    {length : Nat} {u l d s safe : Bool} {custom : Option (List Char)}
    {r sh : Nat → Nat} {pw : List Char} {n : Nat}
    (h : generate_password0 length u l d s safe custom r sh = Except.ok (pw, n)) :
    calculate_entropy n length = (length : ℝ) * Real.logb 2 (n : ℝ) := by
  obtain ⟨-, hflat, hmin, -, hres⟩ := generate_password0_ok_iff.mp h
  simp only [Prod.mk.injEq] at hres
  have hn0 : n ≠ 0 := by
    rw [hres.2]
    have hpos := List.length_pos.mpr hflat
    omega
  have h8 : 8 ≤ length := hmin
  have hl0 : length ≠ 0 := by omega
  simp [calculate_entropy, hn0, hl0]

/-- Helper: the entropy formula on nonzero arguments. -/
theorem calculate_entropy_val {pool_size length : Nat}
    (hp : pool_size ≠ 0) (hl : length ≠ 0) :
    calculate_entropy pool_size length =
      (length : ℝ) * Real.logb 2 (pool_size : ℝ) := by
  simp [calculate_entropy, hp, hl]

/-! The claims. -/

/-- Claim C1: for every request accepted by generate_password, the returned
password has length exactly the requested length (the returned value of
generate_password being the one of the executable core paired with the
entropy of the reported pool size). -/
theorem generate_password_length_eq
    (length : Nat) (u l d s safe : Bool) (custom : Option (List Char))
    (r sh : Nat → Nat) (pw : List Char) (n : Nat)
    (h : generate_password0 length u l d s safe custom r sh = Except.ok (pw, n)) :
    pw.length = length ∧
    generate_password length u l d s safe custom r sh =
      Except.ok (pw, calculate_entropy n length) :=
  ⟨gen0_ok_length h, generate_password_ok h⟩

/-- Claim C2: for every request accepted with no custom pool, the returned
password contains at least one character from each enabled named
category. -/
theorem generate_password_contains_each_category
    (length : Nat) (u l d s safe : Bool) (r sh : Nat → Nat)
    (pw : List Char) (n : Nat)
    (h : generate_password0 length u l d s safe none r sh = Except.ok (pw, n)) :
    (l = true → ∃ ch, ch ∈ pw ∧ ch ∈ CHARS_LOWER) ∧
    (u = true → ∃ ch, ch ∈ pw ∧ ch ∈ CHARS_UPPER) ∧
    (d = true → ∃ ch, ch ∈ pw ∧ ch ∈ CHARS_DIGITS) ∧
    (s = true → ∃ ch, ch ∈ pw ∧
      ch ∈ (if safe then CHARS_SYMBOLS_SAFE else CHARS_SYMBOLS)) := by
  obtain ⟨-, -, -, -, hres⟩ := generate_password0_ok_iff.mp h
  simp only [Prod.mk.injEq] at hres
  obtain ⟨hpw, -⟩ := hres
  have key : ∀ p : List Char, p ∈ poolsOf u l d s safe none →
      ∃ ch, ch ∈ pw ∧ ch ∈ p := by
    intro p hp
    have hne := mem_poolsOf_ne_nil hp
    obtain ⟨ch, hch1, hch2⟩ :=
      drawFrom_exists_mem r (poolsOf u l d s safe none) 0 p hp hne
    refine ⟨ch, ?_, hch2⟩
    rw [hpw]
    exact ((fyShuffle_perm sh _).mem_iff).mpr (List.mem_append_left _ hch1)
  refine ⟨?_, ?_, ?_, ?_⟩
  · intro hl
    exact key CHARS_LOWER (by subst hl; simp [poolsOf, namedPools])
  · intro hu
    exact key CHARS_UPPER (by subst hu; cases l <;> simp [poolsOf, namedPools])
  · intro hd
    exact key CHARS_DIGITS
      (by subst hd; cases l <;> cases u <;> simp [poolsOf, namedPools])
  · intro hs
    exact key (if safe then CHARS_SYMBOLS_SAFE else CHARS_SYMBOLS)
      (by subst hs; cases l <;> cases u <;> cases d <;> cases safe <;>
        simp [poolsOf, namedPools])

/-- Claim C7: without a custom pool the universe used by generate_password
is the concatenation of the enabled named pools in the fixed order
lowercase, uppercase, digits, symbols, with the safe symbol subset being
exactly the source literal; with a (truthy, i.e. nonempty) custom pool the
universe is the custom pool itself, multiplicities preserved. -/
theorem universe_composition :
    (∀ u l d s safe : Bool,
      (poolsOf u l d s safe none).flatten = specUniverse u l d s safe) ∧
    (∀ (u l d s safe : Bool) (cs : List Char), cs ≠ [] →
      (poolsOf u l d s safe (some cs)).flatten = cs) ∧
    CHARS_SYMBOLS_SAFE = "!#%&()*+,-./:;=?@[]^\x7b\x7d~_".toList := by
  refine ⟨?_, ?_, rfl⟩
  · intro u l d s safe
    cases u <;> cases l <;> cases d <;> cases s <;> cases safe <;> rfl
  · intro u l d s safe cs hcs
    have hne : cs.isEmpty = false := by
      cases cs with
      | nil => exact absurd rfl hcs
      | cons a as => rfl
    simp [poolsOf, hne]

/-- Claim C8: with no named category enabled and no custom pool supplied,
generate_password fails with the NoCategorySelected error kind. -/
theorem no_category_no_custom_noCategorySelected :
    ∀ (length : Nat) (safe : Bool) (r sh : Nat → Nat),
      generate_password0 length false false false false safe none r sh =
        Except.error GenError.noCategorySelected ∧
      generate_password length false false false false safe none r sh =
        Except.error GenError.noCategorySelected := by
  intro length safe r sh
  cases safe <;> exact ⟨rfl, rfl⟩

/-- Claim C10: calculate_entropy is total, returning 0 whenever the pool
size or the length is 0, and applying the base-2 logarithm only to a
positive pool size. -/
theorem calculate_entropy_total :
    (∀ length : Nat, calculate_entropy 0 length = 0) ∧
    (∀ pool_size : Nat, calculate_entropy pool_size 0 = 0) ∧
    (∀ pool_size length : Nat, pool_size ≠ 0 → length ≠ 0 →
      calculate_entropy pool_size length =
        (length : ℝ) * Real.logb 2 (pool_size : ℝ)) := by
  refine ⟨?_, ?_, ?_⟩
  · intro length
    simp [calculate_entropy]
  · intro pool_size
    simp [calculate_entropy]
  · intro pool_size length hp hl
    simp [calculate_entropy, hp, hl]

/-- Claim C3: for every accepted request the returned entropy equals
length times the base-2 logarithm of the universe size, the universe size
being the length of the concatenated universe string counting
multiplicities; a request of length 20 over the 26-letter lowercase
universe always succeeds and its entropy lies between 94 and 94.1 bits. -/
theorem generate_password_entropy_formula :
    (∀ (length : Nat) (u l d s safe : Bool) (custom : Option (List Char))
      (r sh : Nat → Nat) (pw : List Char) (n : Nat),
      generate_password0 length u l d s safe custom r sh = Except.ok (pw, n) →
        n = (poolsOf u l d s safe custom).flatten.length ∧
        generate_password length u l d s safe custom r sh =
          Except.ok (pw, (length : ℝ) * Real.logb 2 (n : ℝ))) ∧
    (∀ r sh : Nat → Nat, ∃ pw : List Char,
      generate_password0 20 false true false false false none r sh =
        Except.ok (pw, 26)) ∧
    (94 : ℝ) ≤ calculate_entropy 26 20 ∧ calculate_entropy 26 20 ≤ 94.1 := by
  have hval : calculate_entropy 26 20 = (20 : ℝ) * Real.logb 2 (26 : ℝ) := by
    have h26 : (26 : Nat) ≠ 0 := by decide
    have h20 : (20 : Nat) ≠ 0 := by decide
    simpa using calculate_entropy_val h26 h20
  refine ⟨?_, ?_, ?_, ?_⟩
  · intro length u l d s safe custom r sh pw n h
    refine ⟨gen0_ok_poolSize h, ?_⟩
    rw [generate_password_ok h, gen0_ok_entropy h]
  · intro r sh
    exact ⟨_, rfl⟩
  · rw [hval]
    have h1 : ((2:ℝ) ^ (94:ℕ)) ≤ 26 ^ (20:ℕ) := by norm_num
    have h2 : Real.logb 2 ((2:ℝ) ^ (94:ℕ)) ≤ Real.logb 2 ((26:ℝ) ^ (20:ℕ)) :=
      Real.logb_le_logb_of_le (by norm_num) (by positivity) h1
    rw [Real.logb_pow, Real.logb_pow, Real.logb_self_eq_one (by norm_num)] at h2
    push_cast at h2
    linarith
  · rw [hval]
    have h1 : ((26:ℝ) ^ (200:ℕ)) ≤ 2 ^ (941:ℕ) := by norm_num
    have h2 : Real.logb 2 ((26:ℝ) ^ (200:ℕ)) ≤ Real.logb 2 ((2:ℝ) ^ (941:ℕ)) :=
      Real.logb_le_logb_of_le (by norm_num) (by positivity) h1
    rw [Real.logb_pow, Real.logb_pow, Real.logb_self_eq_one (by norm_num)] at h2
    push_cast at h2
    have h3 : (94.1:ℝ) = 941 / 10 := by norm_num
    rw [h3]
    linarith

/-- Claim C4 (amended): a request whose length is below the number of
mandatory categories, with a valid or absent custom pool, fails with
LengthTooShort, because the minimum-length check precedes the
category-minimum check and at most 4 categories exist while MIN_LENGTH is
8; the LengthBelowCategoryMinimum branch is unreachable. -/
theorem short_length_fails_lengthTooShort :
    (∀ (length : Nat) (u l d s safe : Bool) (custom : Option (List Char))
      (r sh : Nat → Nat),
      ¬(customTruthy custom = true ∧ customDistinct custom < 2) →
      length < (poolsOf u l d s safe custom).length →
      generate_password0 length u l d s safe custom r sh =
        Except.error GenError.lengthTooShort ∧
      generate_password length u l d s safe custom r sh =
        Except.error GenError.lengthTooShort) ∧
    (∀ (length : Nat) (u l d s safe : Bool) (custom : Option (List Char))
      (r sh : Nat → Nat),
      generate_password0 length u l d s safe custom r sh ≠
        Except.error GenError.lengthBelowCategoryMinimum) := by
  constructor
  · intro length u l d s safe custom r sh hc hlt
    have hpools : poolsOf u l d s safe custom ≠ [] := by
      intro hnil
      rw [hnil] at hlt
      simp at hlt
    have hflat := poolsOf_flatten_ne_nil hpools
    have hle := poolsOf_length_le u l d s safe custom
    have hmin : length < MIN_LENGTH := by
      have h8 : MIN_LENGTH = 8 := rfl
      omega
    have h0 : generate_password0 length u l d s safe custom r sh =
        Except.error GenError.lengthTooShort := by
      simp only [generate_password0]
      rw [if_neg hc, if_neg hflat, if_pos hmin]
    exact ⟨h0, generate_password_error h0⟩
  · intro length u l d s safe custom r sh
    have hle := poolsOf_length_le u l d s safe custom
    simp only [generate_password0]
    split_ifs with h1 h2 h3 h4
    · simp
    · simp
    · simp
    · have h8 : MIN_LENGTH = 8 := rfl
      omega
    · simp

/-- Claim C5 (amended): a supplied nonempty custom pool with fewer than two
distinct characters makes generate_password fail with InvalidPool; a
supplied empty custom pool is falsy in Python and is treated as absent. -/
theorem custom_pool_few_distinct_invalidPool :
    ∀ (length : Nat) (u l d s safe : Bool) (cs : List Char) (r sh : Nat → Nat),
      cs ≠ [] → cs.dedup.length < 2 →
      generate_password0 length u l d s safe (some cs) r sh =
        Except.error GenError.invalidPool ∧
      generate_password length u l d s safe (some cs) r sh =
        Except.error GenError.invalidPool := by
  intro length u l d s safe cs r sh h1 h2
  have hc : customTruthy (some cs) = true ∧ customDistinct (some cs) < 2 := by
    constructor
    · cases cs with
      | nil => exact absurd rfl h1
      | cons a as => rfl
    · simpa [customDistinct] using h2
  have h0 : generate_password0 length u l d s safe (some cs) r sh =
      Except.error GenError.invalidPool := by
    simp only [generate_password0]
    rw [if_pos hc]
  exact ⟨h0, generate_password_error h0⟩

/-- Claim C6: generate_password performs all validation before drawing any
randomness: a request that fails does so with the same error kind under
arbitrary random streams, so the outcome of a failing request consumed no
randomness, and the error carries no partially constructed password. -/
theorem validation_before_randomness :
    ∀ (length : Nat) (u l d s safe : Bool) (custom : Option (List Char))
      (r1 sh1 r2 sh2 : Nat → Nat) (e : GenError),
      generate_password0 length u l d s safe custom r1 sh1 = Except.error e →
      generate_password0 length u l d s safe custom r2 sh2 = Except.error e ∧
      generate_password length u l d s safe custom r2 sh2 = Except.error e := by
  intro length u l d s safe custom r1 sh1 r2 sh2 e h
  have h2 : generate_password0 length u l d s safe custom r2 sh2 =
      Except.error e := by
    simp only [generate_password0] at h ⊢
    split_ifs at h ⊢ <;> simp_all
  exact ⟨h2, generate_password_error h2⟩

/-- Claim C9: two calls of generate_password with identical input
parameters that both succeed return passwords of the same length and
exactly the same entropy value, whatever random choices each run makes. -/
theorem same_params_same_length_and_entropy :
    ∀ (length : Nat) (u l d s safe : Bool) (custom : Option (List Char))
      (r1 sh1 r2 sh2 : Nat → Nat) (pw1 pw2 : List Char) (n1 n2 : Nat),
      generate_password0 length u l d s safe custom r1 sh1 = Except.ok (pw1, n1) →
      generate_password0 length u l d s safe custom r2 sh2 = Except.ok (pw2, n2) →
      pw1.length = pw2.length ∧
      generate_password length u l d s safe custom r1 sh1 =
        Except.ok (pw1, calculate_entropy n1 length) ∧
      generate_password length u l d s safe custom r2 sh2 =
        Except.ok (pw2, calculate_entropy n2 length) ∧
      calculate_entropy n1 length = calculate_entropy n2 length := by
  intro length u l d s safe custom r1 sh1 r2 sh2 pw1 pw2 n1 n2 h1 h2
  have hn : n1 = n2 := by
    rw [gen0_ok_poolSize h1, gen0_ok_poolSize h2]
  refine ⟨?_, generate_password_ok h1, generate_password_ok h2, by rw [hn]⟩
  rw [gen0_ok_length h1, gen0_ok_length h2]

/-! Counterexamples. -/

/-- Claim C4 counterexample: a request asking 3 characters from 4 enabled
categories has length below the category count, yet fails with
LengthTooShort, not LengthBelowCategoryMinimum. -/
theorem length_below_category_counterexample :
    3 < (poolsOf true true true true false none).length ∧
    generate_password 3 true true true true false none (fun _ => 0) (fun _ => 0) =
      Except.error GenError.lengthTooShort ∧
    GenError.lengthTooShort ≠ GenError.lengthBelowCategoryMinimum :=
  ⟨by decide, rfl, by decide⟩

/-- Claim C5 counterexample: the empty custom pool has fewer than two
distinct characters, yet generate_password treats it as absent (Python
truthiness of custom_chars) and succeeds when a named category is enabled,
instead of failing with InvalidPool. -/
theorem empty_custom_pool_counterexample :
    customDistinct (some []) < 2 ∧
    generate_password 20 false true false false false (some [])
      (fun _ => 0) (fun _ => 0) =
      Except.ok (List.replicate 20 'a', calculate_entropy 26 20) :=
  ⟨by decide, rfl⟩

/-! Witnesses. -/

/-- Witness for claim C1 at a concrete accepted request. -/
theorem generate_password_length_eq_witness :
    (List.replicate 8 'a').length = 8 ∧
    generate_password 8 false true false false false none (fun _ => 0) (fun _ => 0) =
      Except.ok (List.replicate 8 'a', calculate_entropy 26 8) :=
  generate_password_length_eq 8 false true false false false none
    (fun _ => 0) (fun _ => 0) (List.replicate 8 'a') 26 rfl

/-- Witness for claim C2 at a concrete accepted request with all four
categories enabled. -/
theorem generate_password_contains_each_category_witness :
    (true = true →
      ∃ ch, ch ∈ ['a', 'B', '2', '$', 'e', 'f', 'g', 'h', 'i', 'j'] ∧
        ch ∈ CHARS_LOWER) ∧
    (true = true →
      ∃ ch, ch ∈ ['a', 'B', '2', '$', 'e', 'f', 'g', 'h', 'i', 'j'] ∧
        ch ∈ CHARS_UPPER) ∧
    (true = true →
      ∃ ch, ch ∈ ['a', 'B', '2', '$', 'e', 'f', 'g', 'h', 'i', 'j'] ∧
        ch ∈ CHARS_DIGITS) ∧
    (true = true →
      ∃ ch, ch ∈ ['a', 'B', '2', '$', 'e', 'f', 'g', 'h', 'i', 'j'] ∧
        ch ∈ (if false then CHARS_SYMBOLS_SAFE else CHARS_SYMBOLS)) :=
  generate_password_contains_each_category 10 true true true true false
    (fun i => i) (fun i => i) ['a', 'B', '2', '$', 'e', 'f', 'g', 'h', 'i', 'j'] 94 rfl

/-- Witness for claim C3 at a concrete accepted request. -/
theorem generate_password_entropy_formula_witness :
    26 = (poolsOf false true false false false none).flatten.length ∧
    generate_password 8 false true false false false none (fun _ => 0) (fun _ => 0) =
      Except.ok (List.replicate 8 'a',
        ((8 : Nat) : ℝ) * Real.logb 2 ((26 : Nat) : ℝ)) :=
  generate_password_entropy_formula.1 8 false true false false false none
    (fun _ => 0) (fun _ => 0) (List.replicate 8 'a') 26 rfl

/-- Witness for the amended claim C4 at a concrete too-short request. -/
theorem short_length_fails_lengthTooShort_witness :
    generate_password0 3 true true true true false none (fun _ => 0) (fun _ => 0) =
      Except.error GenError.lengthTooShort ∧
    generate_password 3 true true true true false none (fun _ => 0) (fun _ => 0) =
      Except.error GenError.lengthTooShort :=
  short_length_fails_lengthTooShort.1 3 true true true true false none
    (fun _ => 0) (fun _ => 0) (by decide) (by decide)

/-- Witness for the amended claim C5 at a concrete one-letter custom
pool. -/
theorem custom_pool_few_distinct_invalidPool_witness :
    generate_password0 20 false false false false false (some ['a', 'a'])
      (fun _ => 0) (fun _ => 0) = Except.error GenError.invalidPool ∧
    generate_password 20 false false false false false (some ['a', 'a'])
      (fun _ => 0) (fun _ => 0) = Except.error GenError.invalidPool :=
  custom_pool_few_distinct_invalidPool 20 false false false false false
    ['a', 'a'] (fun _ => 0) (fun _ => 0) (by decide) (by decide)

/-- Witness for claim C6: a failing request keeps its error kind under
different random streams. -/
theorem validation_before_randomness_witness :
    generate_password0 3 true true true true false none (fun _ => 7) (fun _ => 11) =
      Except.error GenError.lengthTooShort ∧
    generate_password 3 true true true true false none (fun _ => 7) (fun _ => 11) =
      Except.error GenError.lengthTooShort :=
  validation_before_randomness 3 true true true true false none
    (fun _ => 0) (fun _ => 0) (fun _ => 7) (fun _ => 11)
    GenError.lengthTooShort rfl

/-- Witness for claim C7 at a concrete nonempty custom pool. -/
theorem universe_composition_witness :
    (poolsOf true true true true true (some ['a', 'b'])).flatten = ['a', 'b'] :=
  universe_composition.2.1 true true true true true ['a', 'b'] (by decide)

/-- Witness for claim C9 at two concrete runs of the same request. -/
theorem same_params_same_length_and_entropy_witness :
    (List.replicate 8 'a').length = (List.replicate 8 'b').length ∧
    generate_password 8 false true false false false none (fun _ => 0) (fun _ => 0) =
      Except.ok (List.replicate 8 'a', calculate_entropy 26 8) ∧
    generate_password 8 false true false false false none (fun _ => 1) (fun _ => 1) =
      Except.ok (List.replicate 8 'b', calculate_entropy 26 8) ∧
    calculate_entropy 26 8 = calculate_entropy 26 8 :=
  same_params_same_length_and_entropy 8 false true false false false none
    (fun _ => 0) (fun _ => 0) (fun _ => 1) (fun _ => 1)
    (List.replicate 8 'a') (List.replicate 8 'b') 26 26 rfl rfl

/-- Witness for claim C10 at concrete nonzero arguments. -/
theorem calculate_entropy_total_witness :
    calculate_entropy 26 20 = ((20 : Nat) : ℝ) * Real.logb 2 ((26 : Nat) : ℝ) :=
  calculate_entropy_total.2.2 26 20 (by decide) (by decide)

end Genpass
